import Mathlib

/-!
Shallow embedding of the Healthcare-Backend API layer
(src/api/views.py and src/api/serializers.py) and proofs of the
spec's claims about it.

Records and the persisted store are modelled as plain Lean structures
over lists; each HTTP handler from views.py becomes a pure function
`Store → inputs → Response × Store`.  Django/DRF generic behaviour that
the handlers rely on (get_object resolving from `get_queryset`,
`super().create/update/destroy`) is embedded following its documented
semantics: `get_object` looks the primary key up inside the ownership-
scoped queryset and yields 404 when absent.
-/

/-- HTTP-level outcome of one request.  `error` is the `{'error': ...}`
body the views attach to failure responses; `body` carries the
serialized representation on success paths that return one. -/
structure Response where
  status : Nat
  error : Option String := none
  body : List (String × String) := []
deriving Repr, DecidableEq

/-- Modelled from the spec: Django's `auth.User` row (the model itself is
framework code, not in src/): id, username, email and the one-way-hashed
password. -/
structure UserRec where
  id : Nat
  username : String
  email : String
  passwordHash : String
deriving Repr, DecidableEq

/-- Modelled from the spec: a `Patient` row (models.py is not under src/):
owned by exactly one user via the `user` foreign key, demographic
attributes collapsed into one abstract `info` field, and server-assigned
timestamps. -/
structure Patient where
  id : Nat
  user : Nat
  info : Nat
  created_at : Nat
  updated_at : Nat
deriving Repr, DecidableEq

/-- Modelled from the spec: a `Doctor` row (models.py is not under src/):
standalone, not owned by a user; professional attributes collapsed into
`info`. -/
structure Doctor where
  id : Nat
  info : Nat
deriving Repr, DecidableEq

/-- Modelled from the spec: a `PatientDoctorMapping` row (models.py is not
under src/): foreign keys to one Patient and one Doctor plus the
server-assigned `assigned_date`. -/
structure MappingRec where
  id : Nat
  patient : Nat
  doctor : Nat
  assigned_date : Nat
deriving Repr, DecidableEq

/-- The persisted relational state: the four tables plus the primary-key
counters the store assigns on insert. -/
structure Store where
  users : List UserRec
  patients : List Patient
  doctors : List Doctor
  mappings : List MappingRec
  nextUserId : Nat
  nextPatientId : Nat
  nextDoctorId : Nat
  nextMappingId : Nat
deriving Repr, DecidableEq

/-- Embeds `PatientViewSet.get_queryset`:
`Patient.objects.filter(user=self.request.user)`. -/
def PatientViewSet.get_queryset (s : Store) (caller : Nat) : List Patient :=
  s.patients.filter (fun p => p.user == caller)

/-- Caller-supplied patient payload.  `user` is the caller-supplied
ownership field: `PatientSerializer` lists it under `read_only_fields`,
so validation drops it before save. -/
structure PatientBody where
  user : Option Nat
  info : Nat
deriving Repr, DecidableEq

/-- Embeds `PatientViewSet.perform_create`: `serializer.save(user=self.request.user)`.
The serializer's `read_only_fields = ('user', 'created_at', 'updated_at')`
means none of those come from the body: owner is the authenticated
caller, timestamps are the server clock, the id is the store's counter. -/
def PatientViewSet.perform_create (s : Store) (caller : Nat) (body : PatientBody)
    (now : Nat) : Response × Store :=
  let p : Patient :=
    { id := s.nextPatientId, user := caller, info := body.info
      created_at := now, updated_at := now }
  ({ status := 201 },
   { s with patients := s.patients ++ [p], nextPatientId := s.nextPatientId + 1 })

/-- Embeds `PatientViewSet.update`: DRF's `get_object` resolves the pk inside
`get_queryset(...)` (404 when absent), then the view compares
`patient.user != request.user` and returns 403, else defers to
`super().update`, which saves the writable fields onto the row and
refreshes `updated_at`. -/
def PatientViewSet.update (s : Store) (caller : Nat) (pk : Nat)
    (body : PatientBody) (now : Nat) : Response × Store :=
  match (PatientViewSet.get_queryset s caller).find? (fun p => p.id == pk) with
  | none => ({ status := 404, error := some "Not found." }, s)
  | some patient =>
    if patient.user != caller then
      ({ status := 403
         error := some "You do not have permission to update this patient." }, s)
    else
      ({ status := 200 },
       { s with patients := s.patients.map (fun q =>
           if q.id == pk then { q with info := body.info, updated_at := now } else q) })

/-- Embeds the `PatientViewSet` destroy action (inherited from `ModelViewSet`): `get_object`
over the ownership-scoped queryset, then delete the row.  Modelled from
the spec: the foreign key from mappings cascades, so mappings referencing
the deleted patient go with it (models.py is not under src/). -/
def PatientViewSet.destroy (s : Store) (caller : Nat) (pk : Nat) : Response × Store :=
  match (PatientViewSet.get_queryset s caller).find? (fun p => p.id == pk) with
  | none => ({ status := 404, error := some "Not found." }, s)
  | some _ =>
    ({ status := 204 },
     { s with patients := s.patients.filter (fun q => q.id != pk)
              mappings := s.mappings.filter (fun m => m.patient != pk) })

/-- Owner of the Patient a mapping's `patient` foreign key points at:
the `patient__user` join used by
`PatientDoctorMappingViewSet.get_queryset` and the
`mapping.patient.user` dereference in `destroy`. -/
def mappingOwner (s : Store) (m : MappingRec) : Option Nat :=
  (s.patients.find? (fun p => p.id == m.patient)).map (fun p => p.user)

/-- Embeds `PatientDoctorMappingViewSet.get_queryset`: always scoped to
`patient__user=self.request.user`; when the `patient_id` query parameter
is present it additionally filters `patient_id=patient_id`. -/
def PatientDoctorMappingViewSet.get_queryset (s : Store) (caller : Nat)
    (patient_id : Option Nat) : List MappingRec :=
  match patient_id with
  | some pid =>
    s.mappings.filter (fun m => m.patient == pid && mappingOwner s m == some caller)
  | none =>
    s.mappings.filter (fun m => mappingOwner s m == some caller)

/-- Embeds `PatientDoctorMappingViewSet.create`: resolve the Patient
(`get_object_or_404(Patient, id=patient_id)`), check
`patient.user != request.user` (403), resolve the Doctor
(`get_object_or_404(Doctor, id=doctor_id)`), check
`PatientDoctorMapping.objects.filter(patient_id=..., doctor_id=...).exists()`
(400), and only then persist via `super().create` with the serializer's
read-only `assigned_date` coming from the server clock.  A body field
that is absent (`request.data.get` returning `None`) makes the matching
`get_object_or_404` raise 404. -/
def PatientDoctorMappingViewSet.create (s : Store) (caller : Nat)
    (patient_id doctor_id : Option Nat) (now : Nat) : Response × Store :=
  match patient_id.bind (fun pid => s.patients.find? (fun p => p.id == pid)) with
  | none => ({ status := 404, error := some "Not found." }, s)
  | some patient =>
    if patient.user != caller then
      ({ status := 403
         error := some "You do not have permission to assign this patient." }, s)
    else
      match doctor_id.bind (fun did => s.doctors.find? (fun d => d.id == did)) with
      | none => ({ status := 404, error := some "Not found." }, s)
      | some _ =>
        if s.mappings.any (fun m =>
            some m.patient == patient_id && some m.doctor == doctor_id) then
          ({ status := 400
             error := some "This patient is already assigned to this doctor." }, s)
        else
          let m : MappingRec :=
            { id := s.nextMappingId, patient := patient.id
              doctor := doctor_id.getD 0, assigned_date := now }
          ({ status := 201 },
           { s with mappings := s.mappings ++ [m]
                    nextMappingId := s.nextMappingId + 1 })

/-- Embeds `PatientDoctorMappingViewSet.destroy`: `get_object` resolves the pk
inside the ownership-scoped `get_queryset(...)` (404 when absent), then
the view compares `mapping.patient.user != request.user` and returns
403, else `super().destroy` deletes the row (204). -/
def PatientDoctorMappingViewSet.destroy (s : Store) (caller : Nat)
    (patient_id : Option Nat) (pk : Nat) : Response × Store :=
  match (PatientDoctorMappingViewSet.get_queryset s caller patient_id).find?
      (fun m => m.id == pk) with
  | none => ({ status := 404, error := some "Not found." }, s)
  | some mapping =>
    if mappingOwner s mapping != some caller then
      ({ status := 403
         error := some "You do not have permission to remove this mapping." }, s)
    else
      ({ status := 204 },
       { s with mappings := s.mappings.filter (fun m => m.id != pk) })

/-- Embeds `UserSerializer.Meta.fields`. -/
def userSerializerFields : List String := ["id", "username", "email", "password"]

/-- The fields `UserSerializer` declares write-only
(`password = serializers.CharField(write_only=True)`). -/
def userWriteOnlyFields : List String := ["password"]

/-- The value a `UserRec` carries for each declared serializer field. -/
def userFieldValue (u : UserRec) : String → String
  | "id" => toString u.id
  | "username" => u.username
  | "email" => u.email
  | "password" => u.passwordHash
  | _ => ""

/-- DRF `ModelSerializer` representation of a user: the declared fields
minus the write-only ones. -/
def serializeUser (u : UserRec) : List (String × String) :=
  (userSerializerFields.filter (fun f => !userWriteOnlyFields.contains f)).map
    (fun f => (f, userFieldValue u f))

/-- Modelled from the spec: the one-way irreversible password hash Django's
`create_user` applies before storing (framework code, not in src/);
represented by an abstract tagging function. -/
def hashPassword (pw : String) : String := "pbkdf2_sha256$" ++ pw

/-- Embeds `RegisterView` (a `CreateAPIView` over `UserSerializer`):
`serializer.is_valid` rejects a missing required field (username, email
or password) and a username that already exists (the User model's unique
username surfaces as a serializer `ValidationError`, HTTP 400) without
creating anything; otherwise `UserSerializer.create` calls
`User.objects.create_user` with the hashed password and the response is
201 with the serialized user. -/
def RegisterView.create (s : Store)
    (username email password : Option String) : Response × Store :=
  match username, email, password with
  | some un, some em, some pw =>
    if s.users.any (fun u => u.username == un) then
      ({ status := 400, error := some "A user with that username already exists." }, s)
    else
      let u : UserRec :=
        { id := s.nextUserId, username := un, email := em
          passwordHash := hashPassword pw }
      ({ status := 201, body := serializeUser u },
       { s with users := s.users ++ [u], nextUserId := s.nextUserId + 1 })
  | _, _, _ =>
    ({ status := 400, error := some "This field is required." }, s)

/-- Embeds the `DoctorViewSet` create action (via `perform_create` / `serializer.save()`):
inserts a doctor row with a fresh id. -/
def DoctorViewSet.perform_create (s : Store) (info : Nat) : Response × Store :=
  ({ status := 201 },
   { s with doctors := s.doctors ++ [{ id := s.nextDoctorId, info := info }]
            nextDoctorId := s.nextDoctorId + 1 })

/-- One API request in the sequential, one-request-at-a-time model: each
constructor carries the authenticated caller (where authentication is
required) and the request inputs. -/
inductive Op where
  | register (username email password : Option String)
  | patientCreate (caller : Nat) (body : PatientBody) (now : Nat)
  | patientUpdate (caller pk : Nat) (body : PatientBody) (now : Nat)
  | patientDestroy (caller pk : Nat)
  | doctorCreate (info : Nat)
  | mappingCreate (caller : Nat) (patient_id doctor_id : Option Nat) (now : Nat)
  | mappingDestroy (caller : Nat) (patient_id : Option Nat) (pk : Nat)
deriving Repr, DecidableEq

/-- Dispatch of one request to the handler that serves it. -/
def step (s : Store) : Op → Response × Store
  | .register un em pw => RegisterView.create s un em pw
  | .patientCreate caller body now => PatientViewSet.perform_create s caller body now
  | .patientUpdate caller pk body now => PatientViewSet.update s caller pk body now
  | .patientDestroy caller pk => PatientViewSet.destroy s caller pk
  | .doctorCreate info => DoctorViewSet.perform_create s info
  | .mappingCreate caller pid did now =>
    PatientDoctorMappingViewSet.create s caller pid did now
  | .mappingDestroy caller pid pk =>
    PatientDoctorMappingViewSet.destroy s caller pid pk

/-- The §3 invariant: no two distinct `PatientDoctorMapping` records share
the same (patient, doctor) pair. -/
def pairInv (s : Store) : Prop :=
  s.mappings.Pairwise (fun a b => ¬ (a.patient = b.patient ∧ a.doctor = b.doctor))

instance (s : Store) : Decidable (pairInv s) :=
  inferInstanceAs (Decidable (List.Pairwise _ _))

/-- A one-patient store used to evaluate the theorems on concrete data:
patient 1 is owned by user 1. -/
def exStore : Store :=
  { users := [], patients := [{ id := 1, user := 1, info := 0
                                created_at := 0, updated_at := 0 }]
    doctors := [], mappings := []
    nextUserId := 1, nextPatientId := 2, nextDoctorId := 1, nextMappingId := 1 }

/-- A store with one mapping: patient 1 (owned by user 1) assigned to
doctor 1 by mapping 1. -/
def exStore2 : Store :=
  { users := [], patients := [{ id := 1, user := 1, info := 0
                                created_at := 0, updated_at := 0 }]
    doctors := [{ id := 1, info := 0 }]
    mappings := [{ id := 1, patient := 1, doctor := 1, assigned_date := 0 }]
    nextUserId := 1, nextPatientId := 2, nextDoctorId := 2, nextMappingId := 2 }

/-! ### Shared lemmas about the embedded tables -/

/-- In a table whose `key` column is duplicate-free, `find?` by the key of
a row that is present returns exactly that row. -/
theorem find?_by_key_eq {α : Type} (l : List α) (key : α → Nat) (x : α)
    (hnd : (l.map key).Nodup) (hx : x ∈ l) :
    l.find? (fun y => key y == key x) = some x := by
  have hsome : (l.find? (fun y => key y == key x)).isSome := by
    rw [List.find?_isSome]
    exact ⟨x, hx, by simp⟩
  obtain ⟨y, hy⟩ := Option.isSome_iff_exists.mp hsome
  have hyl : y ∈ l := List.mem_of_find?_eq_some hy
  have hkey := List.find?_some hy
  have hxy : y = x := List.inj_on_of_nodup_map hnd hyl hx (by simpa using hkey)
  rw [hy, hxy]

/-- Every row of the mapping queryset has its patient owned by the caller. -/
theorem mem_mapping_queryset_owner {s : Store} {caller : Nat}
    {param : Option Nat} {m : MappingRec}
    (h : m ∈ PatientDoctorMappingViewSet.get_queryset s caller param) :
    mappingOwner s m = some caller := by
  cases param with
  | none =>
    have := (List.mem_filter.mp h).2
    simpa using this
  | some pid =>
    have := (List.mem_filter.mp h).2
    simp only [Bool.and_eq_true] at this
    simpa using this.2

/-- The `patient__user` join resolves to the caller exactly when the store
holds a patient row with the mapping's patient id owned by the caller
(patient ids assumed duplicate-free, as the primary key guarantees). -/
theorem mappingOwner_eq_iff (s : Store) (m : MappingRec) (caller : Nat)
    (hnd : (s.patients.map Patient.id).Nodup) :
    mappingOwner s m = some caller ↔
      ∃ p ∈ s.patients, p.id = m.patient ∧ p.user = caller := by
  unfold mappingOwner
  constructor
  · intro h
    obtain ⟨p, hp, hu⟩ := Option.map_eq_some'.mp h
    refine ⟨p, List.mem_of_find?_eq_some hp, ?_, hu⟩
    have := List.find?_some hp
    simpa using this
  · rintro ⟨p, hp, hid, hu⟩
    have hfind := find?_by_key_eq s.patients Patient.id p hnd hp
    rw [hid] at hfind
    rw [hfind]
    simpa using hu

/-- Resolving a present patient id over a duplicate-free id column yields
exactly that patient row. -/
theorem patient_resolve_eq_some (s : Store) {p : Patient} {pid : Option Nat}
    (hnd : (s.patients.map Patient.id).Nodup) (hp : p ∈ s.patients)
    (hpid : some p.id = pid) :
    pid.bind (fun i => s.patients.find? (fun q => q.id == i)) = some p := by
  rw [← hpid]
  simpa using find?_by_key_eq s.patients Patient.id p hnd hp

/-- Mapping creation stops with 404 and an untouched store when no patient
row carries the requested id (or the body omits the id). -/
theorem mapping_create_patient_404 (s : Store) (caller : Nat)
    (pid did : Option Nat) (now : Nat)
    (h : ∀ p ∈ s.patients, some p.id ≠ pid) :
    PatientDoctorMappingViewSet.create s caller pid did now
      = ({ status := 404, error := some "Not found." }, s) := by
  unfold PatientDoctorMappingViewSet.create
  have hb : pid.bind (fun i => s.patients.find? (fun q => q.id == i)) = none := by
    cases pid with
    | none => rfl
    | some pid0 =>
      simp only [Option.some_bind, List.find?_eq_none, beq_iff_eq]
      intro q hq he
      exact h q hq (by rw [he])
  rw [hb]

/-- Mapping creation stops with 403 and an untouched store when the
resolved patient is owned by someone other than the caller; the doctor
and duplicate checks are never consulted. -/
theorem mapping_create_forbidden (s : Store) (caller : Nat)
    (pid did : Option Nat) (now : Nat) (p : Patient)
    (hnd : (s.patients.map Patient.id).Nodup) (hp : p ∈ s.patients)
    (hpid : some p.id = pid) (huser : p.user ≠ caller) :
    PatientDoctorMappingViewSet.create s caller pid did now
      = ({ status := 403
           error := some "You do not have permission to assign this patient." },
         s) := by
  unfold PatientDoctorMappingViewSet.create
  rw [patient_resolve_eq_some s hnd hp hpid]
  simp [huser]

/-- With the patient resolved and owned by the caller, mapping creation
stops with 404 and an untouched store when no doctor row carries the
requested id (or the body omits it). -/
theorem mapping_create_doctor_404 (s : Store) (caller : Nat)
    (pid did : Option Nat) (now : Nat) (p : Patient)
    (hnd : (s.patients.map Patient.id).Nodup) (hp : p ∈ s.patients)
    (hpid : some p.id = pid) (huser : p.user = caller)
    (hd : ∀ d ∈ s.doctors, some d.id ≠ did) :
    PatientDoctorMappingViewSet.create s caller pid did now
      = ({ status := 404, error := some "Not found." }, s) := by
  unfold PatientDoctorMappingViewSet.create
  rw [patient_resolve_eq_some s hnd hp hpid]
  have hb : did.bind (fun i => s.doctors.find? (fun q => q.id == i)) = none := by
    cases did with
    | none => rfl
    | some did0 =>
      simp only [Option.some_bind, List.find?_eq_none, beq_iff_eq]
      intro q hq he
      exact hd q hq (by rw [he])
  simp [huser, hb]

/-- With the patient resolved and owned by the caller and the doctor
present, mapping creation stops with 400 and an untouched store when the
(patient, doctor) pair is already mapped. -/
theorem mapping_create_duplicate (s : Store) (caller : Nat)
    (pid did : Option Nat) (now : Nat) (p : Patient)
    (hnd : (s.patients.map Patient.id).Nodup) (hp : p ∈ s.patients)
    (hpid : some p.id = pid) (huser : p.user = caller)
    (hdoc : ∃ d ∈ s.doctors, some d.id = did)
    (hdup : ∃ m ∈ s.mappings, some m.patient = pid ∧ some m.doctor = did) :
    PatientDoctorMappingViewSet.create s caller pid did now
      = ({ status := 400
           error := some "This patient is already assigned to this doctor." },
         s) := by
  unfold PatientDoctorMappingViewSet.create
  rw [patient_resolve_eq_some s hnd hp hpid]
  obtain ⟨d, hd, hdid⟩ := hdoc
  have hds : (did.bind (fun i => s.doctors.find? (fun q => q.id == i))).isSome := by
    rw [← hdid]
    simp only [Option.some_bind, List.find?_isSome]
    exact ⟨d, hd, by simp⟩
  obtain ⟨d', hd'⟩ := Option.isSome_iff_exists.mp hds
  obtain ⟨m, hm, hmp, hmd⟩ := hdup
  have hany : (s.mappings.any (fun m =>
      some m.patient == pid && some m.doctor == did)) = true := by
    rw [List.any_eq_true]
    exact ⟨m, hm, by simp [hmp, hmd]⟩
  simp [huser, hd', hany]

/-- With all four checks passing, mapping creation persists exactly one
new row, carrying the requested pair and the server timestamp, and
touches nothing else. -/
theorem mapping_create_success (s : Store) (caller : Nat)
    (pid did : Option Nat) (now : Nat) (p : Patient)
    (hnd : (s.patients.map Patient.id).Nodup) (hp : p ∈ s.patients)
    (hpid : some p.id = pid) (huser : p.user = caller)
    (hdoc : ∃ d ∈ s.doctors, some d.id = did)
    (hnodup : ¬ ∃ m ∈ s.mappings, some m.patient = pid ∧ some m.doctor = did) :
    ∃ newm : MappingRec,
      PatientDoctorMappingViewSet.create s caller pid did now
        = ({ status := 201 },
           { s with mappings := s.mappings ++ [newm]
                    nextMappingId := s.nextMappingId + 1 }) ∧
      some newm.patient = pid ∧ some newm.doctor = did ∧
      newm.assigned_date = now := by
  obtain ⟨d, hd, hdid⟩ := hdoc
  refine ⟨{ id := s.nextMappingId, patient := p.id, doctor := did.getD 0
            assigned_date := now }, ?_, ?_, ?_, rfl⟩
  · unfold PatientDoctorMappingViewSet.create
    rw [patient_resolve_eq_some s hnd hp hpid]
    have hds : (did.bind (fun i => s.doctors.find? (fun q => q.id == i))).isSome := by
      rw [← hdid]
      simp only [Option.some_bind, List.find?_isSome]
      exact ⟨d, hd, by simp⟩
    obtain ⟨d', hd'⟩ := Option.isSome_iff_exists.mp hds
    have hany : (s.mappings.any (fun m =>
        some m.patient == pid && some m.doctor == did)) = false := by
      rw [List.any_eq_false]
      intro m hm hmm
      simp only [Bool.and_eq_true, beq_iff_eq] at hmm
      exact hnodup ⟨m, hm, hmm.1, hmm.2⟩
    simp [huser, hd', hany]
  · exact hpid
  · rw [← hdid]
    rfl

/-- Mapping creation either reports success or leaves the store exactly as
it was: no partial persistence on any failing check. -/
theorem mapping_create_fail_preserves (s : Store) (caller : Nat)
    (pid did : Option Nat) (now : Nat) :
    (PatientDoctorMappingViewSet.create s caller pid did now).1.status = 201 ∨
    (PatientDoctorMappingViewSet.create s caller pid did now).2 = s := by
  unfold PatientDoctorMappingViewSet.create
  split
  · right; rfl
  · split
    · right; rfl
    · split
      · right; rfl
      · split
        · right; rfl
        · left; rfl

/-- Registration never writes to the mappings table. -/
theorem register_mappings_eq (s : Store) (un em pw : Option String) :
    (RegisterView.create s un em pw).2.mappings = s.mappings := by
  unfold RegisterView.create
  split
  · split <;> rfl
  · rfl

/-- Patient update never writes to the mappings table. -/
theorem patient_update_mappings_eq (s : Store) (caller pk : Nat)
    (body : PatientBody) (now : Nat) :
    (PatientViewSet.update s caller pk body now).2.mappings = s.mappings := by
  unfold PatientViewSet.update
  split
  · rfl
  · split <;> rfl

/-- Patient deletion only ever removes mapping rows (the modelled cascade),
never adds or rewrites them. -/
theorem patient_destroy_mappings_sublist (s : Store) (caller pk : Nat) :
    (PatientViewSet.destroy s caller pk).2.mappings.Sublist s.mappings := by
  unfold PatientViewSet.destroy
  split
  · exact List.Sublist.refl _
  · exact List.filter_sublist _

/-- Mapping deletion only ever removes mapping rows. -/
theorem mapping_destroy_mappings_sublist (s : Store) (caller : Nat)
    (param : Option Nat) (pk : Nat) :
    (PatientDoctorMappingViewSet.destroy s caller param pk).2.mappings.Sublist
      s.mappings := by
  unfold PatientDoctorMappingViewSet.destroy
  split
  · exact List.Sublist.refl _
  · split
    · exact List.Sublist.refl _
    · exact List.filter_sublist _

/-- The pair invariant only looks at the mappings table. -/
theorem pairInv_of_mappings_eq {s t : Store} (h : t.mappings = s.mappings)
    (hs : pairInv s) : pairInv t := by
  unfold pairInv at *
  rw [h]
  exact hs

/-- The pair invariant survives dropping mapping rows. -/
theorem pairInv_of_sublist {s t : Store} (h : t.mappings.Sublist s.mappings)
    (hs : pairInv s) : pairInv t :=
  List.Pairwise.sublist h hs

/-- Mapping creation preserves the no-duplicate-pair invariant: the only
branch that inserts a row is guarded by the `.exists()` pre-check. -/
theorem mapping_create_pairInv (s : Store) (caller : Nat)
    (pid did : Option Nat) (now : Nat) (hs : pairInv s) :
    pairInv (PatientDoctorMappingViewSet.create s caller pid did now).2 := by
  unfold PatientDoctorMappingViewSet.create
  cases hpb : pid.bind (fun i => s.patients.find? (fun q => q.id == i)) with
  | none => simpa using hs
  | some patient =>
    simp only [hpb]
    by_cases hu : (patient.user != caller) = true
    · simp only [if_pos hu]
      exact hs
    · simp only [if_neg hu]
      cases hdb : did.bind (fun i => s.doctors.find? (fun q => q.id == i)) with
      | none => simpa using hs
      | some d =>
        simp only []
        by_cases ha : (s.mappings.any (fun m =>
            some m.patient == pid && some m.doctor == did)) = true
        · simp only [if_pos ha]
          exact hs
        · simp only [if_neg ha]
          obtain ⟨pid0, hpid0, hpatid⟩ : ∃ i, pid = some i ∧ patient.id = i := by
            cases pid with
            | none => simp at hpb
            | some i =>
              refine ⟨i, rfl, ?_⟩
              have hfp : s.patients.find? (fun q => q.id == i) = some patient := by
                simpa using hpb
              simpa using List.find?_some hfp
          obtain ⟨did0, hdid0⟩ : ∃ i, did = some i := by
            cases did with
            | none => simp at hdb
            | some i => exact ⟨i, rfl⟩
          unfold pairInv at *
          refine List.pairwise_append.mpr ⟨hs, List.pairwise_singleton _ _, ?_⟩
          intro a ha2 b hb
          simp only [List.mem_singleton] at hb
          subst hb
          rintro ⟨hap, had⟩
          have hpred : (fun m => some m.patient == pid && some m.doctor == did)
              a = true := by
            simp only [hpid0, hdid0, Bool.and_eq_true, beq_iff_eq]
            subst hpid0 hdid0
            constructor
            · simpa [hpatid] using congrArg some hap
            · simpa using congrArg some had
          exact absurd (List.any_eq_true.mpr ⟨a, ha2, hpred⟩) ha

/-! ### Claim theorems -/

/-- C5: for every Patient p and caller u, the patient collection returned
to u contains p exactly when p is stored and owned by u — no cross-user
visibility in either direction. -/
theorem patient_list_scoped_to_owner (s : Store) (u : Nat) (p : Patient) :
    p ∈ PatientViewSet.get_queryset s u ↔ p ∈ s.patients ∧ p.user = u := by
  simp [PatientViewSet.get_queryset, List.mem_filter]

/-- C7: a patient created by authenticated caller u is owned by u, and the
caller-supplied ownership field is ignored: the result of creation does
not depend on it at all. -/
theorem patient_create_owner_is_caller (s : Store) (caller : Nat)
    (suppliedUser : Option Nat) (info now : Nat) :
    (∃ p : Patient,
      (PatientViewSet.perform_create s caller ⟨suppliedUser, info⟩ now).2.patients
        = s.patients ++ [p] ∧ p.user = caller) ∧
    PatientViewSet.perform_create s caller ⟨suppliedUser, info⟩ now
      = PatientViewSet.perform_create s caller ⟨none, info⟩ now :=
  ⟨⟨_, rfl, rfl⟩, rfl⟩

/-- C10: the explicit 403 branches in `PatientViewSet.update` and
`PatientDoctorMappingViewSet.destroy` are unreachable: `get_object`
resolves the target from a queryset already restricted to rows owned by
the caller, so neither endpoint ever answers 403. -/
theorem ownership_403_branches_unreachable (s : Store) (caller pk pk2 : Nat)
    (body : PatientBody) (now : Nat) (param : Option Nat) :
    (PatientViewSet.update s caller pk body now).1.status ≠ 403 ∧
    (PatientDoctorMappingViewSet.destroy s caller param pk2).1.status ≠ 403 := by
  constructor
  · unfold PatientViewSet.update
    cases hf : (PatientViewSet.get_queryset s caller).find? (fun p => p.id == pk) with
    | none => simp
    | some patient =>
      have hmem := List.mem_of_find?_eq_some hf
      have huser : (patient.user == caller) = true := (List.mem_filter.mp hmem).2
      have hb : (patient.user != caller) = false := by simp [bne, huser]
      simp [hb]
  · unfold PatientDoctorMappingViewSet.destroy
    cases hf : (PatientDoctorMappingViewSet.get_queryset s caller param).find?
        (fun m => m.id == pk2) with
    | none => simp
    | some m =>
      have hmem := List.mem_of_find?_eq_some hf
      have howner : mappingOwner s m = some caller := mem_mapping_queryset_owner hmem
      have hb : (mappingOwner s m != some caller) = false := by simp [bne, howner]
      simp [hb]

/-- C2 counterexample: patient 1 of `exStore` is owned by user 1, yet an
update attempt by authenticated user 2 answers 404, not the claimed 403:
the ownership-scoped queryset hides the record before the permission
check can fire. -/
theorem patient_update_nonowner_not_403 :
    (PatientViewSet.update exStore 2 1 ⟨none, 5⟩ 9).1.status = 404 ∧
    (PatientViewSet.update exStore 2 1 ⟨none, 5⟩ 9).1.status ≠ 403 ∧
    (PatientViewSet.update exStore 2 1 ⟨none, 5⟩ 9).2 = exStore := by
  decide

/-- C2 (amended): an update request on a patient owned by A, issued by an
authenticated B ≠ A, returns 404 (not-found, with an error body) and
leaves the store — in particular that patient's fields — unchanged. -/
theorem patient_update_nonowner_404 (s : Store) (A B pk : Nat) (p : Patient)
    (body : PatientBody) (now : Nat)
    (hp : p ∈ s.patients) (hid : p.id = pk) (hA : p.user = A) (hBA : B ≠ A)
    (hnd : (s.patients.map Patient.id).Nodup) :
    (PatientViewSet.update s B pk body now).1.status = 404 ∧
    (PatientViewSet.update s B pk body now).1.error = some "Not found." ∧
    (PatientViewSet.update s B pk body now).2 = s := by
  have hnone : (PatientViewSet.get_queryset s B).find? (fun q => q.id == pk)
      = none := by
    rw [List.find?_eq_none]
    intro q hq hqid
    have hqf := List.mem_filter.mp hq
    have hqB : q.user = B := by simpa using hqf.2
    have hqid' : q.id = p.id := by rw [hid]; simpa using hqid
    have hqp : q = p := List.inj_on_of_nodup_map hnd hqf.1 hp hqid'
    exact hBA (by rw [← hqB, hqp, hA])
  unfold PatientViewSet.update
  rw [hnone]
  exact ⟨rfl, rfl, rfl⟩

/-- C2 witness: the amended statement evaluated on `exStore` with owner 1
and caller 2. -/
theorem patient_update_nonowner_404_witness :
    (PatientViewSet.update exStore 2 1 ⟨none, 5⟩ 9).1.status = 404 ∧
    (PatientViewSet.update exStore 2 1 ⟨none, 5⟩ 9).1.error = some "Not found." ∧
    (PatientViewSet.update exStore 2 1 ⟨none, 5⟩ 9).2 = exStore :=
  patient_update_nonowner_404 exStore 1 2 1
    { id := 1, user := 1, info := 0, created_at := 0, updated_at := 0 }
    ⟨none, 5⟩ 9 (by decide) rfl rfl (by decide) (by decide)

/-- C3 counterexample: mapping 1 of `exStore2` joins patient 1 (owned by
user 1) to doctor 1, yet a delete attempt by authenticated user 2
answers 404, not the claimed 403: the ownership-scoped queryset hides
the mapping before the permission check can fire.  The mapping stays. -/
theorem mapping_destroy_nonowner_not_403 :
    (PatientDoctorMappingViewSet.destroy exStore2 2 none 1).1.status = 404 ∧
    (PatientDoctorMappingViewSet.destroy exStore2 2 none 1).1.status ≠ 403 ∧
    (PatientDoctorMappingViewSet.destroy exStore2 2 none 1).2 = exStore2 := by
  decide

/-- C3 (amended): for a mapping m whose patient is owned by A, a delete
request by B ≠ A answers 404 and leaves the store unchanged, while a
delete request by A answers 204 and removes m. -/
theorem mapping_destroy_owner_only (s : Store) (A B : Nat) (param : Option Nat)
    (pk : Nat) (m : MappingRec) (p : Patient)
    (hm : m ∈ s.mappings) (hid : m.id = pk)
    (hp : p ∈ s.patients) (hpid : p.id = m.patient) (hA : p.user = A)
    (hBA : B ≠ A)
    (hndp : (s.patients.map Patient.id).Nodup)
    (hndm : (s.mappings.map MappingRec.id).Nodup)
    (hparam : param = none ∨ param = some m.patient) :
    ((PatientDoctorMappingViewSet.destroy s B param pk).1.status = 404 ∧
     (PatientDoctorMappingViewSet.destroy s B param pk).2 = s) ∧
    ((PatientDoctorMappingViewSet.destroy s A param pk).1.status = 204 ∧
     m ∉ (PatientDoctorMappingViewSet.destroy s A param pk).2.mappings) := by
  have howner : mappingOwner s m = some A :=
    (mappingOwner_eq_iff s m A hndp).mpr ⟨p, hp, hpid, hA⟩
  have hqmem : ∀ pr : Option Nat, ∀ x : MappingRec,
      x ∈ PatientDoctorMappingViewSet.get_queryset s B pr → x ∈ s.mappings := by
    intro pr x hx
    cases pr with
    | none => exact (List.mem_filter.mp hx).1
    | some pid0 => exact (List.mem_filter.mp hx).1
  have hnoneB : (PatientDoctorMappingViewSet.get_queryset s B param).find?
      (fun x => x.id == pk) = none := by
    rw [List.find?_eq_none]
    intro x hx hxid
    have hxmem : x ∈ s.mappings := hqmem param x hx
    have hxown : mappingOwner s x = some B := mem_mapping_queryset_owner hx
    have hxid' : x.id = m.id := by rw [hid]; simpa using hxid
    have hxm : x = m := List.inj_on_of_nodup_map hndm hxmem hm hxid'
    rw [hxm, howner] at hxown
    have hab : A = B := by injection hxown
    exact hBA hab.symm
  constructor
  · unfold PatientDoctorMappingViewSet.destroy
    rw [hnoneB]
    exact ⟨rfl, rfl⟩
  · have hmq : m ∈ PatientDoctorMappingViewSet.get_queryset s A param := by
      rcases hparam with h | h <;> subst h
      · exact List.mem_filter.mpr ⟨hm, by simp [howner]⟩
      · exact List.mem_filter.mpr ⟨hm, by simp [howner]⟩
    have hfs : ((PatientDoctorMappingViewSet.get_queryset s A param).find?
        (fun x => x.id == pk)).isSome := by
      rw [List.find?_isSome]
      exact ⟨m, hmq, by simp [hid]⟩
    obtain ⟨x, hx⟩ := Option.isSome_iff_exists.mp hfs
    have hxq := List.mem_of_find?_eq_some hx
    have hxmem : x ∈ s.mappings := by
      rcases hparam with h | h <;> subst h
      · exact (List.mem_filter.mp hxq).1
      · exact (List.mem_filter.mp hxq).1
    have hxid : x.id = m.id := by
      have := List.find?_some hx
      rw [hid]
      simpa using this
    have hxm : x = m := List.inj_on_of_nodup_map hndm hxmem hm hxid
    subst hxm
    unfold PatientDoctorMappingViewSet.destroy
    rw [hx]
    have hb : (mappingOwner s x != some A) = false := by simp [bne, howner]
    simp only [hb, Bool.false_eq_true, if_false]
    refine ⟨by trivial, ?_⟩
    intro hmem
    have := (List.mem_filter.mp hmem).2
    rw [hid] at this
    simp at this

/-- C3 witness: the amended statement evaluated on `exStore2`, whose only
mapping joins patient 1 (owned by user 1) to doctor 1; the non-owner is
user 2. -/
theorem mapping_destroy_owner_only_witness :
    ((PatientDoctorMappingViewSet.destroy exStore2 2 none 1).1.status = 404 ∧
     (PatientDoctorMappingViewSet.destroy exStore2 2 none 1).2 = exStore2) ∧
    ((PatientDoctorMappingViewSet.destroy exStore2 1 none 1).1.status = 204 ∧
     { id := 1, patient := 1, doctor := 1, assigned_date := 0 }
       ∉ (PatientDoctorMappingViewSet.destroy exStore2 1 none 1).2.mappings) :=
  mapping_destroy_owner_only exStore2 1 2 none 1
    { id := 1, patient := 1, doctor := 1, assigned_date := 0 }
    { id := 1, user := 1, info := 0, created_at := 0, updated_at := 0 }
    (by decide) rfl (by decide) rfl rfl (by decide) (by decide) (by decide)
    (Or.inl rfl)

/-- C1: mapping creation runs its checks in source order — patient
resolution (404), patient ownership (403, regardless of the later
checks), doctor resolution (404), duplicate pair (400) — persists a row
only when all four pass, and changes no persisted state on any failure. -/
theorem mapping_create_check_order (s : Store) (caller : Nat)
    (pid did : Option Nat) (now : Nat)
    (hnd : (s.patients.map Patient.id).Nodup) :
    ((∀ p ∈ s.patients, some p.id ≠ pid) →
      (PatientDoctorMappingViewSet.create s caller pid did now).1.status = 404 ∧
      (PatientDoctorMappingViewSet.create s caller pid did now).2 = s) ∧
    (∀ p ∈ s.patients, some p.id = pid → p.user ≠ caller →
      (PatientDoctorMappingViewSet.create s caller pid did now).1.status = 403 ∧
      (PatientDoctorMappingViewSet.create s caller pid did now).1.error ≠ none ∧
      (PatientDoctorMappingViewSet.create s caller pid did now).2 = s) ∧
    (∀ p ∈ s.patients, some p.id = pid → p.user = caller →
      (∀ d ∈ s.doctors, some d.id ≠ did) →
      (PatientDoctorMappingViewSet.create s caller pid did now).1.status = 404 ∧
      (PatientDoctorMappingViewSet.create s caller pid did now).2 = s) ∧
    (∀ p ∈ s.patients, some p.id = pid → p.user = caller →
      (∃ d ∈ s.doctors, some d.id = did) →
      (∃ m ∈ s.mappings, some m.patient = pid ∧ some m.doctor = did) →
      (PatientDoctorMappingViewSet.create s caller pid did now).1.status = 400 ∧
      (PatientDoctorMappingViewSet.create s caller pid did now).1.error ≠ none ∧
      (PatientDoctorMappingViewSet.create s caller pid did now).2 = s) ∧
    (∀ p ∈ s.patients, some p.id = pid → p.user = caller →
      (∃ d ∈ s.doctors, some d.id = did) →
      (¬ ∃ m ∈ s.mappings, some m.patient = pid ∧ some m.doctor = did) →
      (PatientDoctorMappingViewSet.create s caller pid did now).1.status = 201 ∧
      (∃ newm : MappingRec,
        (PatientDoctorMappingViewSet.create s caller pid did now).2.mappings
          = s.mappings ++ [newm] ∧
        some newm.patient = pid ∧ some newm.doctor = did ∧
        newm.assigned_date = now) ∧
      (PatientDoctorMappingViewSet.create s caller pid did now).2.patients
        = s.patients ∧
      (PatientDoctorMappingViewSet.create s caller pid did now).2.doctors
        = s.doctors ∧
      (PatientDoctorMappingViewSet.create s caller pid did now).2.users
        = s.users) ∧
    ((PatientDoctorMappingViewSet.create s caller pid did now).1.status ≠ 201 →
      (PatientDoctorMappingViewSet.create s caller pid did now).2 = s) := by
  refine ⟨?_, ?_, ?_, ?_, ?_, ?_⟩
  · intro h
    rw [mapping_create_patient_404 s caller pid did now h]
    exact ⟨rfl, rfl⟩
  · intro p hp hpid huser
    rw [mapping_create_forbidden s caller pid did now p hnd hp hpid huser]
    exact ⟨rfl, by simp, rfl⟩
  · intro p hp hpid huser hd
    rw [mapping_create_doctor_404 s caller pid did now p hnd hp hpid huser hd]
    exact ⟨rfl, rfl⟩
  · intro p hp hpid huser hdoc hdup
    rw [mapping_create_duplicate s caller pid did now p hnd hp hpid huser hdoc hdup]
    exact ⟨rfl, by simp, rfl⟩
  · intro p hp hpid huser hdoc hnodup
    obtain ⟨newm, heq, h1, h2, h3⟩ :=
      mapping_create_success s caller pid did now p hnd hp hpid huser hdoc hnodup
    rw [heq]
    exact ⟨rfl, ⟨newm, rfl, h1, h2, h3⟩, rfl, rfl, rfl⟩
  · intro hne
    rcases mapping_create_fail_preserves s caller pid did now with h | h
    · exact absurd h hne
    · exact h

/-- C1 witness: on `exStore2` (pair (1, 1) already mapped, caller owns
patient 1) a repeated create stops at the duplicate check with 400 and
no state change. -/
theorem mapping_create_check_order_witness :
    (PatientDoctorMappingViewSet.create exStore2 1 (some 1) (some 1) 7).1.status
      = 400 ∧
    (PatientDoctorMappingViewSet.create exStore2 1 (some 1) (some 1) 7).1.error
      ≠ none ∧
    (PatientDoctorMappingViewSet.create exStore2 1 (some 1) (some 1) 7).2
      = exStore2 :=
  (mapping_create_check_order exStore2 1 (some 1) (some 1) 7 (by decide)).2.2.2.1
    { id := 1, user := 1, info := 0, created_at := 0, updated_at := 0 }
    (by decide) rfl rfl
    ⟨{ id := 1, info := 0 }, by decide, rfl⟩
    ⟨{ id := 1, patient := 1, doctor := 1, assigned_date := 0 }, by decide, rfl, rfl⟩

/-- Inversion of a successful mapping creation: a 201 means a patient with
the requested id exists and is the caller's, a doctor with the requested
id exists, and exactly the one new row was appended. -/
theorem mapping_create_201_inversion (s : Store) (caller : Nat)
    (pid did : Option Nat) (now : Nat)
    (h201 : (PatientDoctorMappingViewSet.create s caller pid did now).1.status
      = 201) :
    ∃ patient : Patient, patient ∈ s.patients ∧ some patient.id = pid ∧
      patient.user = caller ∧ (∃ d ∈ s.doctors, some d.id = did) ∧
      (PatientDoctorMappingViewSet.create s caller pid did now).2
        = { s with
            mappings := s.mappings ++
              [{ id := s.nextMappingId, patient := patient.id,
                 doctor := did.getD 0, assigned_date := now }],
            nextMappingId := s.nextMappingId + 1 } := by
  unfold PatientDoctorMappingViewSet.create at h201 ⊢
  cases hpb : pid.bind (fun i => s.patients.find? (fun q => q.id == i)) with
  | none => simp only [hpb] at h201; simp at h201
  | some patient =>
    simp only [hpb] at h201 ⊢
    by_cases hu : (patient.user != caller) = true
    · rw [if_pos hu] at h201; simp at h201
    · rw [if_neg hu] at h201
      cases hdb : did.bind (fun i => s.doctors.find? (fun q => q.id == i)) with
      | none => simp only [hdb] at h201; simp at h201
      | some d =>
        simp only [hdb] at h201
        by_cases ha : (s.mappings.any (fun m =>
            some m.patient == pid && some m.doctor == did)) = true
        · rw [if_pos ha] at h201; simp at h201
        · obtain ⟨hpmem, hpid⟩ : patient ∈ s.patients ∧ some patient.id = pid := by
            cases pid with
            | none => simp at hpb
            | some pid0 =>
              have hfp : s.patients.find? (fun q => q.id == pid0) = some patient := by
                simpa using hpb
              refine ⟨List.mem_of_find?_eq_some hfp, ?_⟩
              have := List.find?_some hfp
              simpa using congrArg some (by simpa using this : patient.id = pid0)
          have huser : patient.user = caller := by
            simpa [bne] using hu
          have hdmem : ∃ d0 ∈ s.doctors, some d0.id = did := by
            cases did with
            | none => simp at hdb
            | some did0 =>
              have hfd : s.doctors.find? (fun q => q.id == did0) = some d := by
                simpa using hdb
              refine ⟨d, List.mem_of_find?_eq_some hfd, ?_⟩
              have := List.find?_some hfd
              simpa using congrArg some (by simpa using this : d.id = did0)
          refine ⟨patient, hpmem, hpid, huser, hdmem, ?_⟩
          simp only [if_neg hu, hdb, if_neg ha]

/-- A store with patient 1 (owned by user 1) and doctor 1 but no mapping
yet: a first mapping create succeeds on it. -/
def exStore3 : Store :=
  { users := [], patients := [{ id := 1, user := 1, info := 0
                                created_at := 0, updated_at := 0 }]
    doctors := [{ id := 1, info := 0 }]
    mappings := []
    nextUserId := 1, nextPatientId := 2, nextDoctorId := 2, nextMappingId := 1 }

/-- C4: every request of the sequential model preserves the
no-duplicate-(patient, doctor)-pair invariant, and creating the same
mapping twice makes the second attempt fail with 400 and an error body
while persisting nothing. -/
theorem mapping_pair_invariant (s : Store) (op : Op) (hinv : pairInv s) :
    pairInv (step s op).2 ∧
    (∀ (caller : Nat) (pid did : Option Nat) (now now2 : Nat),
      (s.patients.map Patient.id).Nodup →
      (PatientDoctorMappingViewSet.create s caller pid did now).1.status = 201 →
      (PatientDoctorMappingViewSet.create
          (PatientDoctorMappingViewSet.create s caller pid did now).2
          caller pid did now2).1.status = 400 ∧
      (PatientDoctorMappingViewSet.create
          (PatientDoctorMappingViewSet.create s caller pid did now).2
          caller pid did now2).1.error ≠ none ∧
      (PatientDoctorMappingViewSet.create
          (PatientDoctorMappingViewSet.create s caller pid did now).2
          caller pid did now2).2
        = (PatientDoctorMappingViewSet.create s caller pid did now).2) := by
  constructor
  · cases op with
    | register un em pw =>
      exact pairInv_of_mappings_eq (register_mappings_eq s un em pw) hinv
    | patientCreate caller body now => exact pairInv_of_mappings_eq rfl hinv
    | patientUpdate caller pk body now =>
      exact pairInv_of_mappings_eq
        (patient_update_mappings_eq s caller pk body now) hinv
    | patientDestroy caller pk =>
      exact pairInv_of_sublist (patient_destroy_mappings_sublist s caller pk) hinv
    | doctorCreate info => exact pairInv_of_mappings_eq rfl hinv
    | mappingCreate caller pid did now =>
      exact mapping_create_pairInv s caller pid did now hinv
    | mappingDestroy caller pidp pk =>
      exact pairInv_of_sublist
        (mapping_destroy_mappings_sublist s caller pidp pk) hinv
  · intro caller pid did now now2 hnd h201
    obtain ⟨patient, hpmem, hpid, huser, hdoc, hs1⟩ :=
      mapping_create_201_inversion s caller pid did now h201
    have hnd1 : ((PatientDoctorMappingViewSet.create s caller pid did
        now).2.patients.map Patient.id).Nodup := by
      rw [hs1]
      exact hnd
    have hp1 : patient ∈ (PatientDoctorMappingViewSet.create s caller pid did
        now).2.patients := by
      rw [hs1]
      exact hpmem
    have hdoc1 : ∃ d ∈ (PatientDoctorMappingViewSet.create s caller pid did
        now).2.doctors, some d.id = did := by
      rw [hs1]
      exact hdoc
    have hdup1 : ∃ m ∈ (PatientDoctorMappingViewSet.create s caller pid did
        now).2.mappings, some m.patient = pid ∧ some m.doctor = did := by
      rw [hs1]
      refine ⟨{ id := s.nextMappingId, patient := patient.id
                doctor := did.getD 0, assigned_date := now }, ?_, hpid, ?_⟩
      · exact List.mem_append_right _ (List.mem_singleton.mpr rfl)
      · obtain ⟨d, hd, hdid⟩ := hdoc
        rw [← hdid]
        rfl
    rw [mapping_create_duplicate
      (PatientDoctorMappingViewSet.create s caller pid did now).2
      caller pid did now2 patient hnd1 hp1 hpid huser hdoc1 hdup1]
    exact ⟨rfl, by simp, rfl⟩

/-- C4 witness: on `exStore3` (which satisfies the invariant) the create
of (patient 1, doctor 1) preserves the invariant and a repeat of it
answers 400 without persisting. -/
theorem mapping_pair_invariant_witness :
    pairInv (step exStore3 (Op.mappingCreate 1 (some 1) (some 1) 5)).2 ∧
    ((PatientDoctorMappingViewSet.create
        (PatientDoctorMappingViewSet.create exStore3 1 (some 1) (some 1) 5).2
        1 (some 1) (some 1) 6).1.status = 400 ∧
     (PatientDoctorMappingViewSet.create
        (PatientDoctorMappingViewSet.create exStore3 1 (some 1) (some 1) 5).2
        1 (some 1) (some 1) 6).2
       = (PatientDoctorMappingViewSet.create exStore3 1 (some 1) (some 1) 5).2) := by
  have h := mapping_pair_invariant exStore3
    (Op.mappingCreate 1 (some 1) (some 1) 5) (by decide)
  have h2 := h.2 1 (some 1) (some 1) 5 6 (by decide) (by decide)
  exact ⟨h.1, h2.1, h2.2.2⟩

/-- C6: with or without the optional `patient_id` query parameter, the
mapping list contains exactly the stored mappings whose patient is owned
by the caller, intersected with the parameter filter when supplied — so
supplying another user's patient id reveals nothing. -/
theorem mapping_list_scoped_to_owner (s : Store) (caller : Nat)
    (param : Option Nat) (m : MappingRec)
    (hnd : (s.patients.map Patient.id).Nodup) :
    m ∈ PatientDoctorMappingViewSet.get_queryset s caller param ↔
      m ∈ s.mappings ∧
      (∃ p ∈ s.patients, p.id = m.patient ∧ p.user = caller) ∧
      (∀ pid, param = some pid → m.patient = pid) := by
  cases param with
  | none =>
    simp only [PatientDoctorMappingViewSet.get_queryset, List.mem_filter]
    constructor
    · rintro ⟨hm, hown⟩
      refine ⟨hm, (mappingOwner_eq_iff s m caller hnd).mp (by simpa using hown), ?_⟩
      intro pid h
      cases h
    · rintro ⟨hm, hex, -⟩
      exact ⟨hm, by simpa using (mappingOwner_eq_iff s m caller hnd).mpr hex⟩
  | some pid0 =>
    simp only [PatientDoctorMappingViewSet.get_queryset, List.mem_filter,
      Bool.and_eq_true]
    constructor
    · rintro ⟨hm, hpat, hown⟩
      refine ⟨hm, (mappingOwner_eq_iff s m caller hnd).mp (by simpa using hown), ?_⟩
      intro pid h
      injection h with h
      subst h
      simpa using hpat
    · rintro ⟨hm, hex, hall⟩
      have hmp : m.patient = pid0 := hall pid0 rfl
      refine ⟨hm, ?_, ?_⟩
      · simp [hmp]
      · simpa using (mappingOwner_eq_iff s m caller hnd).mpr hex

/-- C6 witness: the characterization evaluated on `exStore2` for its one
mapping, with the caller-supplied patient id 1. -/
theorem mapping_list_scoped_to_owner_witness :
    ({ id := 1, patient := 1, doctor := 1, assigned_date := 0 } : MappingRec)
        ∈ PatientDoctorMappingViewSet.get_queryset exStore2 1 (some 1) ↔
      ({ id := 1, patient := 1, doctor := 1, assigned_date := 0 } : MappingRec)
        ∈ exStore2.mappings ∧
      (∃ p ∈ exStore2.patients, p.id = 1 ∧ p.user = 1) ∧
      (∀ pid, (some 1 : Option Nat) = some pid → 1 = pid) :=
  mapping_list_scoped_to_owner exStore2 1 (some 1)
    { id := 1, patient := 1, doctor := 1, assigned_date := 0 } (by decide)

/-- C8: a successful registration answers 201 with exactly the fields id,
username, email, and no User-serializing output ever carries the
password field (it is write-only). -/
theorem register_response_excludes_password (s : Store) (un em pw : String)
    (hfresh : ∀ u ∈ s.users, u.username ≠ un) :
    (RegisterView.create s (some un) (some em) (some pw)).1.status = 201 ∧
    ((RegisterView.create s (some un) (some em) (some pw)).1.body.map Prod.fst
      = ["id", "username", "email"]) ∧
    (∀ u : UserRec, (serializeUser u).map Prod.fst = ["id", "username", "email"]) ∧
    (∀ (u : UserRec) (v : String), ("password", v) ∉ serializeUser u) := by
  have hany : (s.users.any fun u => u.username == un) = false := by
    rw [List.any_eq_false]
    intro u hu
    simpa using hfresh u hu
  unfold RegisterView.create
  simp only [hany, Bool.false_eq_true, if_false]
  refine ⟨by trivial, by trivial, fun u => rfl, ?_⟩
  intro u v h
  simp only [serializeUser, userSerializerFields, userWriteOnlyFields,
    List.filter, List.contains, List.elem, List.map, List.mem_cons,
    List.not_mem_nil, or_false, Prod.mk.injEq] at h
  rcases h with ⟨h, -⟩ | ⟨h, -⟩ | ⟨h, -⟩ <;> exact absurd h (by decide)

/-- C8 witness: a registration on the user-free `exStore`. -/
theorem register_response_excludes_password_witness :
    (RegisterView.create exStore (some "ada") (some "ada@x.io")
      (some "s3cret")).1.status = 201 ∧
    ((RegisterView.create exStore (some "ada") (some "ada@x.io")
      (some "s3cret")).1.body.map Prod.fst = ["id", "username", "email"]) := by
  have h := register_response_excludes_password exStore "ada" "ada@x.io" "s3cret"
    (by decide)
  exact ⟨h.1, h.2.1⟩

/-- C9: registering a taken username fails with a validation error (400)
and creates nothing — the first identical registration having succeeded —
and a registration missing any required field fails with a validation
error (400) and creates nothing. -/
theorem register_duplicate_or_missing_fails (s : Store)
    (un em pw em2 pw2 : String)
    (hfresh : ∀ u ∈ s.users, u.username ≠ un) :
    (RegisterView.create s (some un) (some em) (some pw)).1.status = 201 ∧
    ((RegisterView.create (RegisterView.create s (some un) (some em)
        (some pw)).2 (some un) (some em2) (some pw2)).1.status = 400 ∧
     (RegisterView.create (RegisterView.create s (some un) (some em)
        (some pw)).2 (some un) (some em2) (some pw2)).1.error ≠ none ∧
     (RegisterView.create (RegisterView.create s (some un) (some em)
        (some pw)).2 (some un) (some em2) (some pw2)).2
       = (RegisterView.create s (some un) (some em) (some pw)).2) ∧
    (∀ (t : Store) (a b c : Option String), a = none ∨ b = none ∨ c = none →
      (RegisterView.create t a b c).1.status = 400 ∧
      (RegisterView.create t a b c).1.error ≠ none ∧
      (RegisterView.create t a b c).2 = t) := by
  have hany : (s.users.any fun u => u.username == un) = false := by
    rw [List.any_eq_false]
    intro u hu
    simpa using hfresh u hu
  refine ⟨?_, ?_, ?_⟩
  · unfold RegisterView.create
    simp only [hany, Bool.false_eq_true, if_false]
  · have hs1 : (RegisterView.create s (some un) (some em) (some pw)).2
        = { s with
            users := s.users ++
              [{ id := s.nextUserId, username := un,
                 email := em, passwordHash := hashPassword pw }],
            nextUserId := s.nextUserId + 1 } := by
      unfold RegisterView.create
      simp only [hany, Bool.false_eq_true, if_false]
    rw [hs1]
    unfold RegisterView.create
    have hany2 : ((s.users ++
        [({ id := s.nextUserId, username := un,
            email := em, passwordHash := hashPassword pw } : UserRec)]).any
        fun u => u.username == un) = true := by
      rw [List.any_append]
      simp
    simp only [hany2, if_true]
    exact ⟨by trivial, by simp, by trivial⟩
  · intro t a b c h
    rcases h with h | h | h
    · subst h
      cases b <;> cases c <;> exact ⟨rfl, by simp [RegisterView.create], rfl⟩
    · subst h
      cases a <;> cases c <;> exact ⟨rfl, by simp [RegisterView.create], rfl⟩
    · subst h
      cases a <;> cases b <;> exact ⟨rfl, by simp [RegisterView.create], rfl⟩

/-- C9 witness: two registrations of the same username on `exStore` and a
registration with a missing password. -/
theorem register_duplicate_or_missing_fails_witness :
    (RegisterView.create exStore (some "bob") (some "b@x.io")
      (some "pw1")).1.status = 201 ∧
    (RegisterView.create (RegisterView.create exStore (some "bob")
        (some "b@x.io") (some "pw1")).2 (some "bob") (some "b2@x.io")
        (some "pw2")).1.status = 400 ∧
    (RegisterView.create exStore (some "carl") (some "c@x.io")
      none).1.status = 400 := by
  have h := register_duplicate_or_missing_fails exStore "bob" "b@x.io" "pw1"
    "b2@x.io" "pw2" (by decide)
  exact ⟨h.1, h.2.1.1,
    (h.2.2 exStore (some "carl") (some "c@x.io") none (by simp)).1⟩
